import Mathlib

/-!
Shallow embedding of the heuristic speech analyzer
(`backend/speech_analyzer.py`, class `SpeechAnalyzer`).

Conventions of the embedding:
* Python strings are `List Char`; Python floats are `ℚ` (exact rational
  arithmetic idealizes IEEE floats); Python ints are `ℕ`/`ℤ`.
* `round(x, k)` is decimal rounding with ties to even (Python semantics),
  embedded as `rne` (round to nearest integer, ties to even) scaled by `10^k`.
* The `metadata` dict is embedded as `Option ℚ`: `none` covers a `None` or
  empty mapping as well as a mapping without the `duration` key (all of which
  take the same branch in the source), `some d` covers a mapping whose
  `duration` key holds `d`.
* Character classes (`\s`, `\w`, `str.lower`) are embedded over their ASCII
  behaviour, which is the fragment the fixed English lexicons exercise.
* `nltk.sent_tokenize` is an external library call, not code of this
  repository; the in-repo regex fallback splitter (`re.split(r'[.!?]+', ...)`)
  is embedded as the sentence tokenizer.  No field of the returned result
  depends on the sentence list, so this choice is observationally neutral.
-/

/-- Python `\s` / `str.strip` whitespace, ASCII fragment. -/
def isSpaceChar (c : Char) : Bool :=
  c = ' ' || c = '\t' || c = '\n' || c = '\r' || c = '\x0b' || c = '\x0c'

/-- Python `\w` word character (alphanumeric or underscore), ASCII fragment. -/
def isWordChar (c : Char) : Bool :=
  c.isAlphanum || c = '_'

/-- Sentence-ending punctuation used by the fallback sentence splitter. -/
def isSentencePunct (c : Char) : Bool :=
  c = '.' || c = '!' || c = '?'

/-- Does `pat` occur at the very start of `s`? (Python `str.startswith`.) -/
def leadsWith : List Char → List Char → Bool
  | [], _ => true
  | _ :: _, [] => false
  | p :: pt, c :: ct => p == c && leadsWith pt ct

/-- Fuel-driven body of `countOcc`; fuel is an upper bound on the scan length,
so that the recursion is structural and kernel-reducible. -/
def countOccAux (pat : List Char) : ℕ → List Char → ℕ
  | 0, _ => 0
  | _, [] => 0
  | fuel + 1, c :: t =>
    if leadsWith pat (c :: t) then
      1 + countOccAux pat fuel ((c :: t).drop (max pat.length 1))
    else
      countOccAux pat fuel t

/-- Python `str.count`: number of non-overlapping occurrences of `pat` in `s`,
scanning left to right. -/
def countOcc (pat s : List Char) : ℕ :=
  countOccAux pat s.length s

/-- Fuel-driven body of `splitRuns`. -/
def splitRunsAux (p : Char → Bool) : ℕ → List Char → List (List Char)
  | 0, _ => []
  | _, [] => []
  | fuel + 1, c :: t =>
    if p c then
      (c :: t).takeWhile p :: splitRunsAux p fuel ((c :: t).dropWhile p)
    else
      splitRunsAux p fuel t

/-- Maximal runs of characters satisfying `p`, in order (the matches of
`re.findall` for a character-class-plus pattern). -/
def splitRuns (p : Char → Bool) (l : List Char) : List (List Char) :=
  splitRunsAux p l.length l

/-- Fuel-driven body of `collapseWs`. -/
def collapseWsAux : ℕ → List Char → List Char
  | 0, _ => []
  | _, [] => []
  | fuel + 1, c :: t =>
    if isSpaceChar c then
      ' ' :: collapseWsAux fuel (t.dropWhile isSpaceChar)
    else
      c :: collapseWsAux fuel t

/-- Python `re.sub(r'\s+', ' ', text)`: each whitespace run becomes one space. -/
def collapseWs (l : List Char) : List Char :=
  collapseWsAux l.length l

/-- Python `str.strip()`: drop leading and trailing whitespace. -/
def pyStrip (l : List Char) : List Char :=
  (((l.dropWhile isSpaceChar).reverse.dropWhile isSpaceChar)).reverse

/-- Embeds `SpeechAnalyzer._clean_text`: lowercase, collapse whitespace, strip. -/
def cleanText (t : List Char) : List Char :=
  pyStrip (collapseWs (t.map Char.toLower))

/-- Embeds `SpeechAnalyzer._tokenize_words`: maximal word-character runs of
length strictly greater than 1. -/
def tokenizeWords (t : List Char) : List (List Char) :=
  (splitRuns isWordChar t).filter (fun w => decide (1 < w.length))

/-- Embeds `SpeechAnalyzer._tokenize_sentences` along its in-repo fallback
path: split on runs of sentence punctuation, strip each piece, drop empties.
(The primary path calls the external nltk library, which is not code of this
repository; no returned field depends on the sentence list.) -/
def tokenizeSentences (t : List Char) : List (List Char) :=
  ((splitRuns (fun c => !isSentencePunct c) t).map pyStrip).filter
    (fun s => !s.isEmpty)

/-- Guard of `analyze`: Python `not transcript or not transcript.strip()`. -/
def isBlank (t : List Char) : Bool :=
  t.isEmpty || (pyStrip t).isEmpty

/-- Round to the nearest integer with ties to even (the rounding of Python
`round`), via the computable `Rat.floor`. -/
def rne (q : ℚ) : ℤ :=
  if q - Rat.floor q < 1/2 then Rat.floor q
  else if 1/2 < q - Rat.floor q then Rat.floor q + 1
  else if Rat.floor q % 2 = 0 then Rat.floor q else Rat.floor q + 1

/-- Python `round(x, 1)`. -/
def round1 (q : ℚ) : ℚ :=
  ((rne (q * 10) : ℤ) : ℚ) / 10

/-- Python `round(x, 3)`. -/
def round3 (q : ℚ) : ℚ :=
  ((rne (q * 1000) : ℤ) : ℚ) / 1000

/-- Python `int(x)`: truncation toward zero. -/
def pyInt (q : ℚ) : ℤ :=
  if q < 0 then -(Rat.floor (-q)) else Rat.floor q

/-- The fixed filler-word set `SpeechAnalyzer.filler_words`, in source order.
It mixes single tokens with multi-word phrases. -/
def fillerWords : List (List Char) :=
  ["um".data, "uh".data, "er".data, "ah".data, "well".data, "you know".data,
   "like".data, "so".data, "basically".data, "actually".data, "i mean".data,
   "sort of".data, "kind of".data]

/-- The fixed set `SpeechAnalyzer.word_finding_indicators`, in source order. -/
def wordFindingIndicators : List (List Char) :=
  ["thing".data, "stuff".data, "what do you call it".data,
   "whatchamacallit".data, "thingy".data, "whatsit".data, "that thing".data,
   "you know what i mean".data]

/-- The `animals` semantic category of `SpeechAnalyzer.semantic_categories`. -/
def animalWords : List (List Char) :=
  ["dog".data, "cat".data, "bird".data, "fish".data, "horse".data, "cow".data,
   "pig".data, "sheep".data, "chicken".data, "duck".data, "rabbit".data,
   "mouse".data, "elephant".data, "lion".data, "tiger".data]

/-- The `fruits` semantic category of `SpeechAnalyzer.semantic_categories`. -/
def fruitWords : List (List Char) :=
  ["apple".data, "banana".data, "orange".data, "grape".data,
   "strawberry".data, "peach".data, "pear".data, "cherry".data, "plum".data,
   "watermelon".data, "pineapple".data, "mango".data]

/-- Embeds `SpeechAnalyzer._calculate_speech_rate`. -/
def calculateSpeechRate (ws : List (List Char)) (metadata : Option ℚ) : ℚ :=
  match metadata with
  | none => max 60 (min 200 ((ws.length : ℚ) * 2))
  | some d0 =>
    let d : ℚ := if d0 ≤ 0 then 30 else d0
    round1 ((ws.length : ℚ) / d * 60)

/-- Embeds `SpeechAnalyzer._estimate_pause_count`. -/
def estimatePauseCount (t : List Char) : ℕ :=
  let lt := t.map Char.toLower
  let base := countOcc "...".data lt + countOcc "..".data lt +
    countOcc "um".data lt + countOcc "uh".data lt + countOcc "er".data lt +
    countOcc "ah".data lt
  min (base + t.count ',' + 2 * t.count ';') 20

/-- Embeds `SpeechAnalyzer._calculate_vocabulary_richness` (type-token
ratio rounded to 3 decimals, 0 for an empty token list). -/
def calculateVocabularyRichness (ws : List (List Char)) : ℚ :=
  if ws.isEmpty then 0
  else round3 ((ws.dedup.length : ℚ) / (ws.length : ℚ))

/-- Number of tokens that are members of the filler-word set (the filler
count of `SpeechAnalyzer._calculate_fluency_score`). -/
def fillerCount (ws : List (List Char)) : ℕ :=
  (ws.filter (fun w => decide (w ∈ fillerWords))).length

/-- Total excess occurrences of over-repeated words: the sum of
`count - 1` over distinct words occurring more than twice. -/
def repetitionExcess (ws : List (List Char)) : ℕ :=
  (ws.dedup.map (fun w => if 2 < ws.count w then ws.count w - 1 else 0)).sum

/-- Embeds `SpeechAnalyzer._analyze_repetitions`. -/
def analyzeRepetitions (ws : List (List Char)) : ℚ :=
  if ws.isEmpty then 0
  else (repetitionExcess ws : ℚ) / ((max ws.length 1 : ℕ) : ℚ)

/-- Occurrence count feeding `SpeechAnalyzer._analyze_word_finding`: each
indicator phrase counted in the lowercased transcript, plus the count of
`...` in the raw transcript. -/
def wordFindingCount (t : List Char) : ℕ :=
  (wordFindingIndicators.map (fun ind => countOcc ind (t.map Char.toLower))).sum
    + countOcc "...".data t

/-- Embeds `SpeechAnalyzer._analyze_word_finding`. -/
def analyzeWordFinding (t : List Char) (ws : List (List Char)) : ℚ :=
  min ((wordFindingCount t : ℚ) / ((max ws.length 1 : ℕ) : ℚ)) 1

/-- Embeds `SpeechAnalyzer._calculate_fluency_score`. -/
def calculateFluencyScore (t : List Char) (ws : List (List Char)) : ℚ :=
  let score : ℚ := 10 - (fillerCount ws : ℚ) / ((max ws.length 1 : ℕ) : ℚ) * 30
    - analyzeRepetitions ws * 2 - analyzeWordFinding t ws * 3
  max 0 (min 10 (round1 score))

/-- Embeds `SpeechAnalyzer._analyze_semantic_fluency`: distinct tokens that
belong to some semantic category, over `max(word_count, 1)`. -/
def analyzeSemanticFluency (ws : List (List Char)) : ℚ :=
  ((ws.dedup.filter
      (fun w => decide (w ∈ animalWords) || decide (w ∈ fruitWords))).length : ℚ)
    / ((max ws.length 1 : ℕ) : ℚ)

/-- Embeds `SpeechAnalyzer._analyze_syntactic_complexity`. -/
def analyzeSyntacticComplexity (sents : List (List Char)) : ℚ :=
  if sents.isEmpty then 0
  else
    ((sents.map (fun s =>
        min (((splitRuns (fun c => !isSpaceChar c) s).length : ℚ) / 15) 1)).sum)
      / (sents.length : ℚ)

/-- The 8-name feature vector handed to the risk aggregator (the `metrics`
dict built inside `analyze`). -/
structure FeatureVector where
  speech_rate : ℚ
  pause_count : ℚ
  vocabulary_richness : ℚ
  fluency_score : ℚ
  semantic_fluency : ℚ
  syntactic_complexity : ℚ
  repetition_score : ℚ
  word_finding_difficulty : ℚ

/-- Embeds `SpeechAnalyzer._calculate_risk_score`: the additive banded rule
system with two continuous contributions, rounded to an integer value and
clamped to [0, 100]. -/
def calculateRiskScore (m : FeatureVector) : ℚ :=
  let r1 : ℚ := if m.speech_rate < 80 then 25
    else if m.speech_rate < 100 then 15
    else if 200 < m.speech_rate then 10 else 0
  let r2 : ℚ := if 15 < m.pause_count then 20
    else if 10 < m.pause_count then 10
    else if 5 < m.pause_count then 5 else 0
  let r3 : ℚ := if m.vocabulary_richness < 3/10 then 25
    else if m.vocabulary_richness < 4/10 then 15
    else if m.vocabulary_richness < 5/10 then 5 else 0
  let r4 : ℚ := if m.fluency_score < 3 then 25
    else if m.fluency_score < 5 then 15
    else if m.fluency_score < 7 then 5 else 0
  let total := r1 + r2 + r3 + r4 + m.word_finding_difficulty * 20
    + m.repetition_score * 15
  min 100 (max 0 ((rne total : ℤ) : ℚ))

/-- The 4-metric subset reported in the result and fed to the explanation
generator (`pause_count` is a Python int there). -/
structure AnalysisMetrics where
  speechRate : ℚ
  pauseCount : ℕ
  vocabularyRichness : ℚ
  fluencyScore : ℚ

/-- Python `" ".join`. -/
def joinSpaces : List String → String
  | [] => ""
  | [s] => s
  | s :: rest => s ++ " " ++ joinSpaces rest

/-- Python f-string `.1f` formatting of an (idealized) float. -/
def fmt1 (q : ℚ) : String :=
  let n := rne (q * 10)
  let a := n.natAbs
  (if n < 0 then "-" else "") ++ toString (a / 10) ++ "." ++ toString (a % 10)

/-- Python f-string `.0f` formatting of an (idealized) float. -/
def fmt0 (q : ℚ) : String :=
  toString (rne q)

/-- Embeds `SpeechAnalyzer._generate_explanation`: the tier sentence, the
threshold-triggered metric sentences, and the (unreachable) fallback branch
that appends the all-normal sentence only when the list is still empty. -/
def generateExplanation (riskScore : ℚ) (m : AnalysisMetrics) : String :=
  let tier : String := if riskScore < 30 then
      "Speech patterns appear normal with good fluency and vocabulary use."
    else if riskScore < 70 then
      "Some speech patterns may warrant attention, showing mild concerns in certain areas."
    else
      "Several speech patterns suggest potential cognitive changes that may benefit from professional evaluation."
  let es : List String := [tier]
  let es := if m.speechRate < 80 then
      es ++ ["Speech rate is notably slow at " ++ fmt1 m.speechRate ++
        " words/minute (typical range: 120-180)."]
    else if 200 < m.speechRate then
      es ++ ["Speech rate is quite fast at " ++ fmt1 m.speechRate ++
        " words/minute, which may indicate anxiety or other factors."]
    else es
  let es := if 10 < m.pauseCount then
      es ++ ["Frequent pauses detected (" ++ toString m.pauseCount ++
        " instances), which may indicate word-finding difficulties."]
    else es
  let es := if m.vocabularyRichness < 4/10 then
      es ++ ["Vocabulary diversity is lower than expected (" ++
        fmt0 (m.vocabularyRichness * 100) ++ "% unique words)."]
    else es
  let es := if m.fluencyScore < 5 then
      es ++ ["Fluency score is concerning (" ++ fmt1 m.fluencyScore ++
        "/10), with evidence of hesitations or word-finding issues."]
    else es
  let es := if es.isEmpty then
      es ++ ["All speech metrics appear within normal ranges for this sample."]
    else es
  joinSpaces es

/-- The single error kind of the analyzer (the spec calls the raised
condition `InvalidInputError`). -/
inductive AnalyzerError where
  | invalidInput
deriving DecidableEq

/-- Shape of a successful `analyze` result: the risk score is reported as an
integer (`int(risk_score)`), with the explanation and the 4-metric mapping. -/
structure AnalysisResult where
  riskScore : ℤ
  explanation : String
  metrics : AnalysisMetrics

/-- Body of `analyze` past the input-validation guard. -/
def analyzeCore (t : List Char) (metadata : Option ℚ) : AnalysisResult :=
  let cleaned := cleanText t
  let ws := tokenizeWords cleaned
  let sents := tokenizeSentences cleaned
  let speechRate := calculateSpeechRate ws metadata
  let pauseCount := estimatePauseCount t
  let vocab := calculateVocabularyRichness ws
  let fluency := calculateFluencyScore t ws
  let semantic := analyzeSemanticFluency ws
  let syntactic := analyzeSyntacticComplexity sents
  let repetition := analyzeRepetitions ws
  let wfd := analyzeWordFinding t ws
  let risk := calculateRiskScore
    ⟨speechRate, (pauseCount : ℚ), vocab, fluency, semantic, syntactic,
      repetition, wfd⟩
  let expl := generateExplanation risk
    ⟨speechRate, pauseCount, vocab, fluency⟩
  ⟨pyInt risk, expl, ⟨speechRate, pauseCount, vocab, fluency⟩⟩

/-- Embeds `SpeechAnalyzer.analyze`: raise on an empty or whitespace-only
transcript, otherwise run the full pipeline. -/
def analyze (t : List Char) (metadata : Option ℚ) :
    Except AnalyzerError AnalysisResult :=
  if isBlank t then .error .invalidInput else .ok (analyzeCore t metadata)

/-! ### Reference definitions written from the specification text

The definitions in this block follow the wording of the spec (they exist to
be compared with the embedding of the source above, for the refinement
claims); they are not translations of the source code. -/

/-- Spec reference (C2): speech-rate band, written as a sum over mutually
exclusive bands (at most one indicator is set). -/
def speechRateBand (x : ℚ) : ℚ :=
  (if x < 80 then 25 else 0) + (if 80 ≤ x ∧ x < 100 then 15 else 0) +
    (if 200 < x then 10 else 0)

/-- Spec reference (C2): pause-count band. -/
def pauseCountBand (p : ℚ) : ℚ :=
  (if 15 < p then 20 else 0) + (if 10 < p ∧ p ≤ 15 then 10 else 0) +
    (if 5 < p ∧ p ≤ 10 then 5 else 0)

/-- Spec reference (C2): vocabulary-richness band. -/
def vocabularyBand (v : ℚ) : ℚ :=
  (if v < 3/10 then 25 else 0) + (if 3/10 ≤ v ∧ v < 4/10 then 15 else 0) +
    (if 4/10 ≤ v ∧ v < 5/10 then 5 else 0)

/-- Spec reference (C2): fluency-score band. -/
def fluencyBand (f : ℚ) : ℚ :=
  (if f < 3 then 25 else 0) + (if 3 ≤ f ∧ f < 5 then 15 else 0) +
    (if 5 ≤ f ∧ f < 7 then 5 else 0)

/-- Spec reference (C2): the additive reference rule — band sums plus the
two continuous contributions, clamped to [0, 100] and rounded to the nearest
integer (ties to even, matching the documented rounding of the code). -/
def aggregateSpec (m : FeatureVector) : ℚ :=
  ((rne (min 100 (max 0
    (speechRateBand m.speech_rate + pauseCountBand m.pause_count +
      vocabularyBand m.vocabulary_richness + fluencyBand m.fluency_score +
      m.word_finding_difficulty * 20 + m.repetition_score * 15))) : ℤ) : ℚ)

/-- Spec reference (C3): speech rate exactly as the claim words it — a
positive supplied duration uses the words-per-minute formula, every other
case (no usable metadata, or a non-positive duration) uses the estimation
fallback `clamp(word_count * 2, 60, 200)`. -/
def specSpeechRateC3 (ws : List (List Char)) (metadata : Option ℚ) : ℚ :=
  match metadata with
  | some d =>
    if 0 < d then round1 ((ws.length : ℚ) / d * 60)
    else max 60 (min 200 ((ws.length : ℚ) * 2))
  | none => max 60 (min 200 ((ws.length : ℚ) * 2))

/-- Amended C3 rule: a non-positive supplied duration is replaced by the
default 30 seconds (so the rate is `word_count * 2` rounded to 1 decimal,
without the [60, 200] clamp); only absent metadata uses the clamped
estimation fallback. -/
def amendedSpeechRate (ws : List (List Char)) (metadata : Option ℚ) : ℚ :=
  match metadata with
  | some d =>
    if 0 < d then round1 ((ws.length : ℚ) / d * 60)
    else round1 ((ws.length : ℚ) / 30 * 60)
  | none => max 60 (min 200 ((ws.length : ℚ) * 2))

/-- The single-token members of the filler set. -/
def singleFillerTokens : List (List Char) :=
  ["um".data, "uh".data, "er".data, "ah".data, "well".data, "like".data,
   "so".data, "basically".data, "actually".data]

/-- The multi-word members of the filler set. -/
def multiFillerPhrases : List (List Char) :=
  ["you know".data, "i mean".data, "sort of".data, "kind of".data]

/-- Spec reference (C4): the filler count as the claim words it —
single-token fillers matched against tokens, multi-word phrases matched as
substrings of the raw transcript. -/
def specFillerCountC4 (t : List Char) (ws : List (List Char)) : ℕ :=
  (ws.filter (fun w => decide (w ∈ singleFillerTokens))).length +
    (multiFillerPhrases.map (fun p => countOcc p t)).sum

/-- Spec reference (C4): the fluency formula as the claim words it. -/
def fluencySpecC4 (t : List Char) (ws : List (List Char)) : ℚ :=
  round1 (max 0 (min 10
    (10 - 30 * ((specFillerCountC4 t ws : ℚ) / ((max ws.length 1 : ℕ) : ℚ))
      - 2 * analyzeRepetitions ws - 3 * analyzeWordFinding t ws)))

/-- Amended C4 rule: same formula, but the filler count counts only the
tokens that are members of the filler set (the multi-word phrases can never
match a token and contribute nothing). -/
def fluencyAmended (t : List Char) (ws : List (List Char)) : ℚ :=
  round1 (max 0 (min 10
    (10 - 30 * (((ws.filter
          (fun w => decide (w ∈ singleFillerTokens))).length : ℚ)
        / ((max ws.length 1 : ℕ) : ℚ))
      - 2 * analyzeRepetitions ws - 3 * analyzeWordFinding t ws)))

/-- Concrete transcript used to separate the code from the C4 reference
rule: it contains the phrase "you know" but no single-token filler. -/
def c4transcript : List Char :=
  "you know they went home today".data

/-- The token sequence the analyzer extracts from `c4transcript`. -/
def c4tokens : List (List Char) :=
  tokenizeWords (cleanText c4transcript)

/-! ### Properties of the rounding helpers -/

theorem ratFloor_eq_floor (q : ℚ) : Rat.floor q = ⌊q⌋ := by
  rw [Rat.floor_def' q, Rat.floor_def]

theorem floor_le_rne (q : ℚ) : ⌊q⌋ ≤ rne q := by
  unfold rne
  rw [ratFloor_eq_floor]
  split_ifs <;> omega

theorem rne_le_floor_add_one (q : ℚ) : rne q ≤ ⌊q⌋ + 1 := by
  unfold rne
  rw [ratFloor_eq_floor]
  split_ifs <;> omega

theorem rne_intCast (n : ℤ) : rne ((n : ℤ) : ℚ) = n := by
  unfold rne
  rw [ratFloor_eq_floor, Int.floor_intCast]
  norm_num

theorem rne_mono {q₁ q₂ : ℚ} (h : q₁ ≤ q₂) : rne q₁ ≤ rne q₂ := by
  by_cases hf : ⌊q₁⌋ < ⌊q₂⌋
  · calc rne q₁ ≤ ⌊q₁⌋ + 1 := rne_le_floor_add_one q₁
    _ ≤ ⌊q₂⌋ := by omega
    _ ≤ rne q₂ := floor_le_rne q₂
  · have hf2 : ⌊q₁⌋ = ⌊q₂⌋ := le_antisymm (Int.floor_le_floor h) (not_lt.mp hf)
    unfold rne
    rw [ratFloor_eq_floor, ratFloor_eq_floor, hf2]
    split_ifs <;> first | omega | linarith

theorem rne_clamp (a b : ℤ) (hab : a ≤ b) (q : ℚ) :
    min b (max a (rne q)) = rne (min (b : ℚ) (max (a : ℚ) q)) := by
  rcases le_total q a with h | h
  · have h1 : max (a : ℚ) q = a := max_eq_left h
    have h2 : min (b : ℚ) (a : ℚ) = (a : ℚ) := min_eq_right (by exact_mod_cast hab)
    rw [h1, h2, rne_intCast]
    have h3 : rne q ≤ a := by
      calc rne q ≤ rne ((a : ℤ) : ℚ) := rne_mono h
      _ = a := rne_intCast a
    rw [max_eq_left h3, min_eq_right hab]
  · rcases le_total q b with h' | h'
    · have h1 : max (a : ℚ) q = q := max_eq_right h
      have h2 : min (b : ℚ) q = q := min_eq_right h'
      rw [h1, h2]
      have h3 : a ≤ rne q := by
        calc a = rne ((a : ℤ) : ℚ) := (rne_intCast a).symm
        _ ≤ rne q := rne_mono h
      have h4 : rne q ≤ b := by
        calc rne q ≤ rne ((b : ℤ) : ℚ) := rne_mono h'
        _ = b := rne_intCast b
      rw [max_eq_right h3, min_eq_right h4]
    · have h1 : min (b : ℚ) (max (a : ℚ) q) = (b : ℚ) := by
        apply min_eq_left
        calc (b : ℚ) ≤ q := h'
        _ ≤ max (a : ℚ) q := le_max_right _ _
      rw [h1, rne_intCast]
      have h3 : b ≤ rne q := by
        calc b = rne ((b : ℤ) : ℚ) := (rne_intCast b).symm
        _ ≤ rne q := rne_mono h'
      have h4 : a ≤ rne q := le_trans hab h3
      rw [max_eq_right h4, min_eq_left h3]

theorem round1_intCast (n : ℤ) : round1 ((n : ℤ) : ℚ) = (n : ℚ) := by
  unfold round1
  have h : ((n : ℤ) : ℚ) * 10 = ((n * 10 : ℤ) : ℚ) := by push_cast; ring
  rw [h, rne_intCast]
  push_cast
  ring

theorem round1_mono {q₁ q₂ : ℚ} (h : q₁ ≤ q₂) : round1 q₁ ≤ round1 q₂ := by
  unfold round1
  have h1 : rne (q₁ * 10) ≤ rne (q₂ * 10) := rne_mono (by linarith)
  have h2 : ((rne (q₁ * 10) : ℤ) : ℚ) ≤ ((rne (q₂ * 10) : ℤ) : ℚ) := by
    exact_mod_cast h1
  linarith

theorem round3_intCast (n : ℤ) : round3 ((n : ℤ) : ℚ) = (n : ℚ) := by
  unfold round3
  have h : ((n : ℤ) : ℚ) * 1000 = ((n * 1000 : ℤ) : ℚ) := by push_cast; ring
  rw [h, rne_intCast]
  push_cast
  ring

theorem round3_mono {q₁ q₂ : ℚ} (h : q₁ ≤ q₂) : round3 q₁ ≤ round3 q₂ := by
  unfold round3
  have h1 : rne (q₁ * 1000) ≤ rne (q₂ * 1000) := rne_mono (by linarith)
  have h2 : ((rne (q₁ * 1000) : ℤ) : ℚ) ≤ ((rne (q₂ * 1000) : ℤ) : ℚ) := by
    exact_mod_cast h1
  linarith

theorem pyInt_intCast (n : ℤ) : pyInt ((n : ℤ) : ℚ) = n := by
  unfold pyInt
  rw [ratFloor_eq_floor, ratFloor_eq_floor]
  split_ifs with h
  · have h2 : (-((n : ℤ) : ℚ)) = (((-n : ℤ)) : ℚ) := by push_cast; ring
    rw [h2, Int.floor_intCast]
    ring
  · exact Int.floor_intCast n

/-! ### Clamp and band lemmas -/

theorem rne_clamp_q (q : ℚ) :
    min (100 : ℚ) (max 0 ((rne q : ℤ) : ℚ)) = ((rne (min 100 (max 0 q)) : ℤ) : ℚ) := by
  have h := rne_clamp 0 100 (by norm_num) q
  have hc : ((min 100 (max 0 (rne q)) : ℤ) : ℚ)
      = min (100 : ℚ) (max 0 ((rne q : ℤ) : ℚ)) := by
    push_cast
    rfl
  rw [← hc, h]
  norm_num

theorem round1_clamp (q : ℚ) :
    max 0 (min 10 (round1 q)) = round1 (max 0 (min 10 q)) := by
  have h0 : round1 (0 : ℚ) = 0 := by
    have := round1_intCast 0
    push_cast at this
    exact this
  have h10 : round1 (10 : ℚ) = 10 := by
    have := round1_intCast 10
    push_cast at this
    exact this
  rcases le_total q 0 with h | h
  · rw [min_eq_right (h.trans (by norm_num)), max_eq_left h, h0]
    have h1 : round1 q ≤ 0 := h0 ▸ round1_mono h
    rw [min_eq_right (h1.trans (by norm_num)), max_eq_left h1]
  · rcases le_total q 10 with h2 | h2
    · rw [min_eq_right h2, max_eq_right h]
      have h3 : 0 ≤ round1 q := h0 ▸ round1_mono h
      have h4 : round1 q ≤ 10 := h10 ▸ round1_mono h2
      rw [min_eq_right h4, max_eq_right h3]
    · have h3 : 10 ≤ round1 q := h10 ▸ round1_mono h2
      rw [min_eq_left h2, max_eq_right (by norm_num : (0:ℚ) ≤ 10), h10,
        min_eq_left h3]
      norm_num

theorem speechChain_eq_band (x : ℚ) :
    (if x < 80 then (25 : ℚ) else if x < 100 then 15 else if 200 < x then 10 else 0)
      = speechRateBand x := by
  unfold speechRateBand
  split_ifs <;> (try simp only [not_and_or] at *) <;> (try casesm* (_ ∨ _)) <;> linarith

theorem pauseChain_eq_band (p : ℚ) :
    (if 15 < p then (20 : ℚ) else if 10 < p then 10 else if 5 < p then 5 else 0)
      = pauseCountBand p := by
  unfold pauseCountBand
  split_ifs <;> (try simp only [not_and_or] at *) <;> (try casesm* (_ ∨ _)) <;> linarith

theorem vocabChain_eq_band (v : ℚ) :
    (if v < 3/10 then (25 : ℚ) else if v < 4/10 then 15 else if v < 5/10 then 5 else 0)
      = vocabularyBand v := by
  unfold vocabularyBand
  split_ifs <;> (try simp only [not_and_or] at *) <;> (try casesm* (_ ∨ _)) <;> linarith

theorem fluencyChain_eq_band (f : ℚ) :
    (if f < 3 then (25 : ℚ) else if f < 5 then 15 else if f < 7 then 5 else 0)
      = fluencyBand f := by
  unfold fluencyBand
  split_ifs <;> (try simp only [not_and_or] at *) <;> (try casesm* (_ ∨ _)) <;> linarith

/-! ### Tokenizer lemmas -/

theorem splitRunsAux_all (p : Char → Bool) (fuel : ℕ) :
    ∀ (l : List Char), ∀ w ∈ splitRunsAux p fuel l, w.all p = true := by
  induction fuel with
  | zero => intro l w hw; simp [splitRunsAux] at hw
  | succ n ih =>
    intro l w hw
    cases l with
    | nil => simp [splitRunsAux] at hw
    | cons c t =>
      simp only [splitRunsAux] at hw
      by_cases hc : p c
      · rw [if_pos hc] at hw
        rcases List.mem_cons.mp hw with h | h
        · subst h
          rw [List.all_eq_true]
          intro x hx
          exact List.mem_takeWhile_imp hx
        · exact ih _ w h
      · rw [if_neg hc] at hw
        exact ih t w hw

theorem tokenizeWords_all_wordChar (t : List Char) :
    ∀ w ∈ tokenizeWords t, w.all isWordChar = true := by
  intro w hw
  unfold tokenizeWords splitRuns at hw
  exact splitRunsAux_all isWordChar t.length t w (List.mem_of_mem_filter hw)

theorem token_no_space (t : List Char) (w : List Char) (hw : w ∈ tokenizeWords t) :
    ' ' ∉ w := by
  intro hsp
  have hall := tokenizeWords_all_wordChar t w hw
  rw [List.all_eq_true] at hall
  have := hall ' ' hsp
  simp [isWordChar] at this

theorem filler_iff_single (w : List Char) (hns : ' ' ∉ w) :
    w ∈ fillerWords ↔ w ∈ singleFillerTokens := by
  constructor
  · intro h
    simp only [fillerWords, List.mem_cons, List.not_mem_nil, or_false] at h
    rcases h with rfl | rfl | rfl | rfl | rfl | rfl | rfl | rfl | rfl | rfl | rfl | rfl | rfl
    · decide
    · decide
    · decide
    · decide
    · decide
    · exact absurd (by decide : ' ' ∈ "you know".data) hns
    · decide
    · decide
    · decide
    · decide
    · exact absurd (by decide : ' ' ∈ "i mean".data) hns
    · exact absurd (by decide : ' ' ∈ "sort of".data) hns
    · exact absurd (by decide : ' ' ∈ "kind of".data) hns
  · intro h
    simp only [singleFillerTokens, List.mem_cons, List.not_mem_nil, or_false] at h
    rcases h with rfl | rfl | rfl | rfl | rfl | rfl | rfl | rfl | rfl <;> decide

theorem fillerCount_eq_single (t : List Char) :
    fillerCount (tokenizeWords t)
      = ((tokenizeWords t).filter
          (fun w => decide (w ∈ singleFillerTokens))).length := by
  unfold fillerCount
  congr 1
  apply List.filter_congr
  intro w hw
  have hns := token_no_space t w hw
  simp [filler_iff_single w hns]

/-! ### Blank-transcript lemmas -/

theorem pyStrip_eq_nil_iff (t : List Char) :
    pyStrip t = [] ↔ ∀ c ∈ t, isSpaceChar c = true := by
  unfold pyStrip
  rw [List.reverse_eq_nil_iff, List.dropWhile_eq_nil_iff]
  constructor
  · intro h c hc
    have hsplit := List.takeWhile_append_dropWhile isSpaceChar t
    rw [← hsplit] at hc
    rcases List.mem_append.mp hc with h1 | h1
    · exact List.mem_takeWhile_imp h1
    · exact h c (List.mem_reverse.mpr h1)
  · intro h c hc
    have h1 : c ∈ t.dropWhile isSpaceChar := List.mem_reverse.mp hc
    exact h c ((List.dropWhile_sublist isSpaceChar).subset h1)

theorem isBlank_iff (t : List Char) :
    isBlank t = true ↔ (t = [] ∨ ∀ c ∈ t, isSpaceChar c = true) := by
  unfold isBlank
  rw [Bool.or_eq_true, List.isEmpty_iff, List.isEmpty_iff, pyStrip_eq_nil_iff]

/-! ### Bounds of the aggregated score and of the reported metrics -/

theorem clampInt_exists (q : ℚ) :
    ∃ w : ℤ, min (100 : ℚ) (max 0 ((rne q : ℤ) : ℚ)) = ((w : ℤ) : ℚ) ∧
      0 ≤ w ∧ w ≤ 100 := by
  refine ⟨min 100 (max 0 (rne q)), ?_, ?_, min_le_left _ _⟩
  · push_cast
    rfl
  · exact le_min (by norm_num) (le_max_left 0 _)

theorem calculateRiskScore_int (m : FeatureVector) :
    ∃ w : ℤ, calculateRiskScore m = ((w : ℤ) : ℚ) ∧ 0 ≤ w ∧ w ≤ 100 := by
  simp only [calculateRiskScore]
  exact clampInt_exists _

theorem pyInt_risk_bounds (m : FeatureVector) :
    0 ≤ pyInt (calculateRiskScore m) ∧ pyInt (calculateRiskScore m) ≤ 100 := by
  obtain ⟨w, hw, h0, h100⟩ := calculateRiskScore_int m
  rw [hw, pyInt_intCast]
  exact ⟨h0, h100⟩

theorem round3_zero : round3 (0 : ℚ) = 0 := by
  have := round3_intCast 0
  push_cast at this
  exact this

theorem round3_one : round3 (1 : ℚ) = 1 := by
  have := round3_intCast 1
  push_cast at this
  exact this

theorem vocab_bounds (ws : List (List Char)) :
    0 ≤ calculateVocabularyRichness ws ∧ calculateVocabularyRichness ws ≤ 1 := by
  unfold calculateVocabularyRichness
  by_cases h : ws.isEmpty
  · rw [if_pos h]
    norm_num
  · rw [if_neg h]
    have hne : ws ≠ [] := by
      intro hnil
      rw [hnil] at h
      simp at h
    have hlen : (0 : ℚ) < (ws.length : ℚ) := by
      exact_mod_cast List.length_pos.mpr hne
    have hd : (ws.dedup.length : ℚ) ≤ (ws.length : ℚ) := by
      exact_mod_cast (List.dedup_sublist ws).length_le
    have hr0 : (0 : ℚ) ≤ (ws.dedup.length : ℚ) / (ws.length : ℚ) :=
      div_nonneg (by positivity) (le_of_lt hlen)
    have hr1 : (ws.dedup.length : ℚ) / (ws.length : ℚ) ≤ 1 :=
      (div_le_one hlen).mpr hd
    constructor
    · calc (0 : ℚ) = round3 0 := round3_zero.symm
      _ ≤ round3 ((ws.dedup.length : ℚ) / (ws.length : ℚ)) := round3_mono hr0
    · calc round3 ((ws.dedup.length : ℚ) / (ws.length : ℚ)) ≤ round3 1 :=
        round3_mono hr1
      _ = 1 := round3_one

theorem fluency_bounds (t : List Char) (ws : List (List Char)) :
    0 ≤ calculateFluencyScore t ws ∧ calculateFluencyScore t ws ≤ 10 := by
  unfold calculateFluencyScore
  constructor
  · exact le_max_left 0 _
  · exact max_le (by norm_num) (min_le_left 10 _)

/-! ### Claims -/

/-- C1: for every non-empty, not whitespace-only transcript and any
metadata, `analyze` succeeds and the `riskScore` field of its result — an
integer by construction, mirroring `int(risk_score)` in the source — lies
in [0, 100]. -/
theorem analyze_riskScore_in_range (t : List Char) (md : Option ℚ)
    (h : isBlank t = false) :
    ∃ r, analyze t md = .ok r ∧ 0 ≤ r.riskScore ∧ r.riskScore ≤ 100 := by
  refine ⟨analyzeCore t md, by simp [analyze, h], ?_, ?_⟩
  · exact (pyInt_risk_bounds _).1
  · exact (pyInt_risk_bounds _).2

/-- Witness for C1 at a concrete non-blank transcript. -/
theorem analyze_riskScore_in_range_witness :
    isBlank "hello there friend".data = false ∧
      ∃ r, analyze "hello there friend".data none = .ok r ∧
        0 ≤ r.riskScore ∧ r.riskScore ≤ 100 :=
  ⟨by decide, analyze_riskScore_in_range "hello there friend".data none (by decide)⟩

/-- C2: for every feature vector the risk aggregator computes exactly the
additive reference rule — per-feature mutually exclusive bands, the two
continuous contributions, then clamping to [0, 100] and rounding to the
nearest integer (ties to even). -/
theorem calculateRiskScore_eq_spec (m : FeatureVector) :
    calculateRiskScore m = aggregateSpec m := by
  simp only [calculateRiskScore, aggregateSpec]
  rw [speechChain_eq_band, pauseChain_eq_band, vocabChain_eq_band,
    fluencyChain_eq_band]
  exact rne_clamp_q _

/-- C3 counterexample: with a supplied non-positive duration (here 0) and
ten tokens, the code reports 20.0 words/minute (duration replaced by the
default 30 s, unclamped) while the claimed fallback would report the clamped
value 60. -/
theorem speechRate_counterexample :
    calculateSpeechRate (List.replicate 10 "hello".data) (some 0)
      ≠ specSpeechRateC3 (List.replicate 10 "hello".data) (some 0) := by
  have hlen : ((List.replicate 10 "hello".data).length : ℚ) = 10 := by
    simp
  have h20 : round1 (20 : ℚ) = 20 := by
    have := round1_intCast 20
    push_cast at this
    exact this
  have hL : calculateSpeechRate (List.replicate 10 "hello".data) (some 0) = 20 := by
    simp only [calculateSpeechRate]
    rw [if_pos (le_refl (0 : ℚ)), hlen]
    rw [show (10 : ℚ) / 30 * 60 = 20 by norm_num, h20]
  have hR : specSpeechRateC3 (List.replicate 10 "hello".data) (some 0) = 60 := by
    simp only [specSpeechRateC3]
    rw [if_neg (lt_irrefl (0 : ℚ)), hlen]
    rw [show (10 : ℚ) * 2 = 20 by norm_num,
      min_eq_right (by norm_num : (20 : ℚ) ≤ 200),
      max_eq_left (by norm_num : (20 : ℚ) ≤ 60)]
  rw [hL, hR]
  norm_num

/-- C3 amended: a duration strictly greater than 0 gives the
words-per-minute formula rounded to 1 decimal; absent metadata gives the
clamped estimation fallback; but a supplied non-positive duration is
replaced by the default 30 seconds, giving `word_count * 2` rounded to 1
decimal without the [60, 200] clamp. -/
theorem calculateSpeechRate_eq_amended (ws : List (List Char)) (md : Option ℚ) :
    calculateSpeechRate ws md = amendedSpeechRate ws md := by
  cases md with
  | none => rfl
  | some d =>
    simp only [calculateSpeechRate, amendedSpeechRate]
    by_cases h : d ≤ 0
    · rw [if_pos h, if_neg (not_lt.mpr h)]
    · rw [if_neg h, if_pos (not_le.mp h)]

/-- C4 counterexample: on `c4transcript` the code scores fluency 10.0 (no
token is a filler), while the claimed rule — which also counts "you know" as
a substring of the raw transcript — would score 5.0. -/
theorem fluency_counterexample :
    calculateFluencyScore c4transcript c4tokens
      ≠ fluencySpecC4 c4transcript c4tokens := by
  have hlen : (c4tokens.length : ℚ) = 6 := by
    rw [show c4tokens.length = 6 from by decide]
    norm_num
  have hmax : ((max c4tokens.length 1 : ℕ) : ℚ) = 6 := by
    rw [show max c4tokens.length 1 = 6 from by decide]
    norm_num
  have hfc : fillerCount c4tokens = 0 := by decide
  have hemp : c4tokens.isEmpty = false := by decide
  have hrep : analyzeRepetitions c4tokens = 0 := by
    rw [analyzeRepetitions, show repetitionExcess c4tokens = 0 from by decide]
    simp [hemp]
  have hwf : analyzeWordFinding c4transcript c4tokens = 0 := by
    rw [analyzeWordFinding, show wordFindingCount c4transcript = 0 from by decide]
    norm_num
  have h10 : round1 (10 : ℚ) = 10 := by
    have := round1_intCast 10
    push_cast at this
    exact this
  have h5 : round1 (5 : ℚ) = 5 := by
    have := round1_intCast 5
    push_cast at this
    exact this
  have hL : calculateFluencyScore c4transcript c4tokens = 10 := by
    simp only [calculateFluencyScore]
    rw [hfc, hrep, hwf, hmax]
    rw [show (10 : ℚ) - ((0 : ℕ) : ℚ) / 6 * 30 - 0 * 2 - 0 * 3 = 10 by norm_num, h10]
    rw [min_eq_right (le_refl (10 : ℚ)), max_eq_right (by norm_num : (0 : ℚ) ≤ 10)]
  have hR : fluencySpecC4 c4transcript c4tokens = 5 := by
    simp only [fluencySpecC4]
    rw [show specFillerCountC4 c4transcript c4tokens = 1 from by decide,
      hrep, hwf, hmax]
    rw [show (10 : ℚ) - 30 * (((1 : ℕ) : ℚ) / 6) - 2 * 0 - 3 * 0 = 5 by norm_num]
    rw [min_eq_right (by norm_num : (5 : ℚ) ≤ 10),
      max_eq_right (by norm_num : (0 : ℚ) ≤ 5), h5]
  rw [hL, hR]
  norm_num

/-- C4 amended: the fluency formula holds as claimed, except that the filler
count counts only tokens that are members of the filler set — the multi-word
phrases of the set can never match a token (tokens contain no space) and are
not matched against the raw transcript. -/
theorem calculateFluencyScore_eq_amended (t : List Char) :
    calculateFluencyScore t (tokenizeWords (cleanText t))
      = fluencyAmended t (tokenizeWords (cleanText t)) := by
  simp only [calculateFluencyScore, fluencyAmended]
  rw [fillerCount_eq_single (cleanText t), round1_clamp]
  congr 1
  congr 1
  congr 1
  ring

/-- C5 evaluation at the failing input: with risk 0 and all four metrics in
their normal ranges, the explanation is the tier sentence alone; the
all-normal sentence is never appended, because its guard tests emptiness of
the whole sentence list, which always already holds the tier sentence. -/
theorem explanation_no_trigger_eval :
    generateExplanation 0 ⟨120, 0, 1/2, 10⟩
      = "Speech patterns appear normal with good fluency and vocabulary use." := by
  simp only [generateExplanation]
  norm_num [joinSpaces]

/-- C6: `analyze` fails — with the single error kind — exactly when the
transcript is empty or contains only whitespace, and returns a result on
every other transcript. -/
theorem analyze_error_iff_blank (t : List Char) (md : Option ℚ) :
    (analyze t md = .error .invalidInput ↔
      (t = [] ∨ ∀ c ∈ t, isSpaceChar c = true)) ∧
    ((∃ r, analyze t md = .ok r) ↔
      ¬(t = [] ∨ ∀ c ∈ t, isSpaceChar c = true)) := by
  by_cases hb : isBlank t = true
  · have h := (isBlank_iff t).mp hb
    constructor
    · simp [analyze, hb, h]
    · simp [analyze, hb, h]
  · have h : ¬(t = [] ∨ ∀ c ∈ t, isSpaceChar c = true) := fun hc =>
      hb ((isBlank_iff t).mpr hc)
    have hb2 : isBlank t = false := by
      simpa using hb
    constructor
    · simp [analyze, hb2, h]
    · simp [analyze, hb2, h]

/-- C7: `analyze` is a deterministic pure function of the pair
(transcript, metadata): identical inputs give identical outputs (in this
embedding it is a function of exactly these two arguments and of the fixed
lexical configuration, with no other state). -/
theorem analyze_deterministic (t₁ t₂ : List Char) (md₁ md₂ : Option ℚ)
    (ht : t₁ = t₂) (hm : md₁ = md₂) : analyze t₁ md₁ = analyze t₂ md₂ := by
  rw [ht, hm]

/-- Witness for C7 at a concrete repeated call. -/
theorem analyze_deterministic_witness :
    "hello there".data = "hello there".data ∧ (none : Option ℚ) = none ∧
      analyze "hello there".data none = analyze "hello there".data none :=
  ⟨rfl, rfl, analyze_deterministic "hello there".data "hello there".data
    none none rfl rfl⟩

/-- C8: holding all other features fixed, the aggregated risk score is
monotone non-decreasing in the `pause_count` feature (in particular,
increasing it past 15 never decreases the score). -/
theorem riskScore_pause_monotone (m : FeatureVector) (p₁ p₂ : ℚ)
    (h : p₁ ≤ p₂) :
    calculateRiskScore { m with pause_count := p₁ }
      ≤ calculateRiskScore { m with pause_count := p₂ } := by
  simp only [calculateRiskScore]
  have hband :
      (if 15 < p₁ then (20 : ℚ) else if 10 < p₁ then 10 else if 5 < p₁ then 5 else 0)
        ≤ (if 15 < p₂ then (20 : ℚ) else if 10 < p₂ then 10 else if 5 < p₂ then 5 else 0) := by
    split_ifs <;> linarith
  refine min_le_min le_rfl (max_le_max le_rfl ?_)
  have key : ∀ a b : ℚ, a ≤ b → ((rne a : ℤ) : ℚ) ≤ ((rne b : ℤ) : ℚ) := by
    intro a b hab
    exact_mod_cast rne_mono hab
  apply key
  linarith [hband]

/-- Witness for C8 at a concrete feature vector and pause counts 16 ≤ 40. -/
theorem riskScore_pause_monotone_witness :
    (16 : ℚ) ≤ 40 ∧
      calculateRiskScore
          { (⟨120, 0, 1/2, 8, 0, 0, 0, 0⟩ : FeatureVector) with pause_count := 16 }
        ≤ calculateRiskScore
          { (⟨120, 0, 1/2, 8, 0, 0, 0, 0⟩ : FeatureVector) with pause_count := 40 } :=
  ⟨by norm_num, riskScore_pause_monotone ⟨120, 0, 1/2, 8, 0, 0, 0, 0⟩ 16 40
    (by norm_num)⟩

/-- C9: whenever `analyze` returns, the reported vocabulary richness lies in
[0, 1] (and is 0 for an empty token sequence) and the reported fluency score
lies in [0, 10]. -/
theorem analyze_metric_bounds (t : List Char) (md : Option ℚ)
    (h : isBlank t = false) :
    ∃ r, analyze t md = .ok r ∧
      0 ≤ r.metrics.vocabularyRichness ∧ r.metrics.vocabularyRichness ≤ 1 ∧
      0 ≤ r.metrics.fluencyScore ∧ r.metrics.fluencyScore ≤ 10 ∧
      (tokenizeWords (cleanText t) = [] → r.metrics.vocabularyRichness = 0) := by
  refine ⟨analyzeCore t md, by simp [analyze, h], ?_, ?_, ?_, ?_, ?_⟩
  · exact (vocab_bounds _).1
  · exact (vocab_bounds _).2
  · exact (fluency_bounds _ _).1
  · exact (fluency_bounds _ _).2
  · intro hnil
    show calculateVocabularyRichness (tokenizeWords (cleanText t)) = 0
    rw [hnil]
    simp [calculateVocabularyRichness]

/-- Witness for C9 at a concrete non-blank transcript whose token sequence
is empty (every word has length 1). -/
theorem analyze_metric_bounds_witness :
    isBlank "a a a".data = false ∧
      ∃ r, analyze "a a a".data none = .ok r ∧
        0 ≤ r.metrics.vocabularyRichness ∧ r.metrics.vocabularyRichness ≤ 1 ∧
        0 ≤ r.metrics.fluencyScore ∧ r.metrics.fluencyScore ≤ 10 ∧
        (tokenizeWords (cleanText "a a a".data) = [] →
          r.metrics.vocabularyRichness = 0) :=
  ⟨by decide, analyze_metric_bounds "a a a".data none (by decide)⟩

/-- C10: the extractors are total with explicit guards — a non-empty
transcript whose every word has length ≤ 1 yields an empty token sequence,
yet `analyze` still produces a full result for any metadata; vocabulary
richness, syntactic complexity and the repetition score all return 0 on
empty input instead of dividing by zero. -/
theorem degenerate_input_total :
    tokenizeWords (cleanText "a a a".data) = [] ∧
    (∀ md : Option ℚ, analyze "a a a".data md = .ok (analyzeCore "a a a".data md)) ∧
    calculateVocabularyRichness [] = 0 ∧
    analyzeSyntacticComplexity [] = 0 ∧
    analyzeRepetitions [] = 0 := by
  refine ⟨by decide, fun md => ?_, by simp [calculateVocabularyRichness],
    by simp [analyzeSyntacticComplexity], by simp [analyzeRepetitions]⟩
  have hb : isBlank "a a a".data = false := by decide
  simp [analyze, hb]

/-- Witness for C6 at the whitespace-only transcript of the specification
scenario. -/
theorem analyze_error_iff_blank_witness :
    (analyze "   ".data none = .error .invalidInput ↔
      ("   ".data = [] ∨ ∀ c ∈ "   ".data, isSpaceChar c = true)) ∧
    ((∃ r, analyze "   ".data none = .ok r) ↔
      ¬("   ".data = [] ∨ ∀ c ∈ "   ".data, isSpaceChar c = true)) :=
  analyze_error_iff_blank "   ".data none
